import Mathlib

/-!
Verification of the transcript segmentation pipeline and hybrid reranker
(lecture-lens).  The TypeScript sources are shallowly embedded: JS strings
become `String`, JS numbers become `ℚ` (with `Option ℚ` where `NaN` can
arise), thrown exceptions become `Except String`, and JS `undefined`/absent
record fields become `Option`.  Where a result genuinely depends on IEEE-754
binary64 rounding — the timestamp formatter — the rounding is modelled
explicitly (`roundDouble`).  Each definition mirrors one source function.
-/

unseal Rat.add Rat.mul Rat.sub Rat.inv Rat.ofScientific

/-- JS whitespace class `\s` restricted to the ASCII characters that occur in
the inputs considered here (space, tab, newline, carriage return). -/
def isWsChar (c : Char) : Bool :=
  c = ' ' || c = '\t' || c = '\n' || c = '\r'

/-- JS `String.prototype.trim`: strip leading and trailing whitespace. -/
def jsTrim (s : String) : String :=
  String.mk (((s.toList.dropWhile isWsChar).reverse.dropWhile isWsChar).reverse)

mutual

/-- Piece-accumulating half of JS `str.split(/\s+/)`: `cur` is the current
piece reversed. -/
def splitWsPiece : List Char → List Char → List (List Char)
  | cur, [] => [cur.reverse]
  | cur, c :: cs =>
    if isWsChar c then cur.reverse :: splitWsRun cs else splitWsPiece (c :: cur) cs

/-- Run-skipping half of JS `str.split(/\s+/)`: consume a maximal whitespace
run; a run that reaches the end of the string contributes a trailing empty
piece, exactly as in JS. -/
def splitWsRun : List Char → List (List Char)
  | [] => [[]]
  | c :: cs => if isWsChar c then splitWsRun cs else splitWsPiece [c] cs

end

/-- JS `str.split(/\s+/)`: split on maximal whitespace runs; a leading or
trailing run yields an empty piece, and the empty string yields `[""]`. -/
def jsSplitWs (s : String) : List String :=
  (splitWsPiece [] s.toList).map String.mk

/-- List-level single-character split, mirroring JS `str.split(sep)` for a
one-character separator. -/
def splitOnChar (sep : Char) : List Char → List (List Char)
  | [] => [[]]
  | c :: cs =>
    if c = sep then [] :: splitOnChar sep cs
    else
      match splitOnChar sep cs with
      | [] => [[c]]
      | p :: ps => (c :: p) :: ps

/-- JS `str.split(sep)` for a single-character separator. -/
def jsSplitOn (sep : Char) (s : String) : List String :=
  (splitOnChar sep s.toList).map String.mk

/-- Does `needle` occur as a contiguous sublist of the second argument?
The empty needle always occurs, matching JS `String.prototype.includes`. -/
def listHasInfix (needle : List Char) : List Char → Bool
  | [] => needle.isEmpty
  | c :: t => needle.isPrefixOf (c :: t) || listHasInfix needle t

/-- JS `s.includes(sub)`. -/
def jsIncludes (s sub : String) : Bool :=
  listHasInfix sub.toList s.toList

/-- JS `s.toLowerCase()` on ASCII text. -/
def jsToLower (s : String) : String :=
  String.mk (s.toList.map Char.toLower)

/-- Value of a non-empty list of decimal digit characters. -/
def digitsVal (ds : List Char) : ℤ :=
  ds.foldl (fun a c => 10 * a + ((c.toNat : ℤ) - 48)) 0

/-- JS `parseInt(s)` in base 10: skip leading whitespace, read an optional
sign and then a maximal run of digits; `none` models the `NaN` result when
no digit is found. -/
def jsParseInt (s : String) : Option ℤ :=
  let cs := s.toList.dropWhile isWsChar
  let p : ℤ × List Char :=
    match cs with
    | '-' :: r => (-1, r)
    | '+' :: r => (1, r)
    | _ => (1, cs)
  let ds := p.2.takeWhile Char.isDigit
  if ds.isEmpty then none else some (p.1 * digitsVal ds)

/-- NaN-propagating addition on JS numbers modelled as `Option ℚ`. -/
def nAdd (a b : Option ℚ) : Option ℚ :=
  match a, b with
  | some x, some y => some (x + y)
  | _, _ => none

/-- NaN-propagating multiplication. -/
def nMul (a b : Option ℚ) : Option ℚ :=
  match a, b with
  | some x, some y => some (x * y)
  | _, _ => none

/-- NaN-propagating division by a nonzero constant. -/
def nDiv (a b : Option ℚ) : Option ℚ :=
  match a, b with
  | some x, some y => some (x / y)
  | _, _ => none

/-- JS `Math.min` on two numbers, in kernel-computable form (proved equal
to `min` below). -/
def jsMin (a b : ℚ) : ℚ :=
  if a ≤ b then a else b

/-- JS `a < b` where the left operand may be `NaN`: any comparison with
`NaN` is false. -/
def jsLtQ (a : Option ℚ) (b : ℚ) : Bool :=
  match a with
  | none => false
  | some x => decide (x < b)

/-- JS `a > b` where the left operand may be `NaN`. -/
def jsGtQ (a : Option ℚ) (b : ℚ) : Bool :=
  match a with
  | none => false
  | some x => decide (b < x)

/-- Floor of a rational, in the kernel-computable `num / den` form
(proved equal to `Int.floor` below). -/
def qFloor (x : ℚ) : ℤ :=
  x.num / x.den

/-- Ceiling of a rational, computable (proved equal to `Int.ceil` below). -/
def qCeil (x : ℚ) : ℤ :=
  -qFloor (-x)

/-- Fuelled binary logarithm (floor) on naturals, kernel-computable. -/
def natLog2Aux : ℕ → ℕ → ℕ
  | 0, _ => 0
  | fuel + 1, n => if n ≤ 1 then 0 else natLog2Aux fuel (n / 2) + 1

/-- Floor of the binary logarithm of a natural number. -/
def natLog2 (n : ℕ) : ℕ :=
  natLog2Aux n n

/-- The rational `2 ^ e` for an integer exponent, kernel-computable. -/
def qPow2 : ℤ → ℚ
  | .ofNat n => ((2 ^ n : ℕ) : ℚ)
  | .negSucc n => 1 / ((2 ^ (n + 1) : ℕ) : ℚ)

/-- Floor of the binary logarithm of a positive rational. -/
def floorLog2 (q : ℚ) : ℤ :=
  let e0 : ℤ := (natLog2 q.num.toNat : ℤ) - (natLog2 q.den : ℤ)
  if qPow2 e0 ≤ q then (if qPow2 (e0 + 1) ≤ q then e0 + 1 else e0) else e0 - 1

/-- Round a nonnegative rational to the nearest integer, ties to even. -/
def roundNearestEven (x : ℚ) : ℤ :=
  let f := qFloor x
  let r := x - f
  if r < 1 / 2 then f
  else if 1 / 2 < r then f + 1
  else if f % 2 = 0 then f else f + 1

/-- Round a positive rational to the nearest IEEE-754 binary64 value
(round to nearest, ties to even), for magnitudes in the normal range: the
significand is the 53-bit nearest-even rounding of `q / 2 ^ (e - 52)`. -/
def roundDoublePos (q : ℚ) : ℚ :=
  let e := floorLog2 q
  let scale := qPow2 (e - 52)
  (roundNearestEven (q / scale) : ℚ) * scale

/-- Round a rational to the nearest IEEE-754 binary64 value.  This models
the rounding every inexact JS arithmetic result undergoes. -/
def roundDouble (q : ℚ) : ℚ :=
  if q = 0 then 0
  else if q < 0 then -roundDoublePos (-q) else roundDoublePos q

/-- JS `/` on doubles: the exact quotient rounded to binary64. -/
def dDiv (a b : ℚ) : ℚ :=
  roundDouble (a / b)

/-- JS `*` on doubles: the exact product rounded to binary64. -/
def dMul (a b : ℚ) : ℚ :=
  roundDouble (a * b)

/-- Decidable equality for `Except`, used to evaluate the embedded
fallible functions on concrete inputs. -/
instance {ε α : Type} [DecidableEq ε] [DecidableEq α] : DecidableEq (Except ε α) :=
  fun a b =>
    match a, b with
    | .ok x, .ok y => if h : x = y then .isTrue (by rw [h]) else .isFalse (by simp [h])
    | .error x, .error y => if h : x = y then .isTrue (by rw [h]) else .isFalse (by simp [h])
    | .ok _, .error _ => .isFalse (by simp)
    | .error _, .ok _ => .isFalse (by simp)

/-- Truncation toward zero, as used by the JS `%` operator. -/
def jsTrunc (x : ℚ) : ℤ :=
  if 0 ≤ x then qFloor x else qCeil x

/-- JS remainder `a % b` (truncated division). -/
def jsMod (a b : ℚ) : ℚ :=
  a - b * (jsTrunc (a / b) : ℚ)

/-- `timestampToSeconds` (timestamp-utils): split on `:`; throw unless there
are exactly three groups; otherwise `parseInt` each group (a `.`-split
supplies the millisecond group, `'0'` standing in when it is missing or
empty) and combine.  A non-numeric group makes `parseInt` return `NaN`
(`none`), which propagates to the result instead of raising. -/
def timestampToSeconds (timestamp : String) : Except String (Option ℚ) :=
  let parts := jsSplitOn ':' timestamp
  if parts.length ≠ 3 then
    .error ("Invalid timestamp format: " ++ timestamp)
  else
    let hours := parts.getD 0 ""
    let minutes := parts.getD 1 ""
    let secondsWithMs := parts.getD 2 ""
    let sp := jsSplitOn '.' secondsWithMs
    let seconds := sp.getD 0 ""
    let msStr :=
      match sp.get? 1 with
      | none => "0"
      | some m => if m = "" then "0" else m
    let toQ : Option ℤ → Option ℚ := fun o => o.map (fun z => (z : ℚ))
    .ok (nAdd (nAdd (nAdd (nMul (toQ (jsParseInt hours)) (some 3600))
      (nMul (toQ (jsParseInt minutes)) (some 60)))
      (toQ (jsParseInt seconds)))
      (nDiv (toQ (jsParseInt msStr)) (some 1000)))

/-- JS `String.prototype.padStart(n, c)`. -/
def jsPadStart (s : String) (n : ℕ) (c : Char) : String :=
  String.mk (List.replicate (n - s.length) c) ++ s

/-- `secondsToTimestamp` (timestamp-utils): decompose a (nonnegative, the
only case the codec meets) number of seconds into hours, minutes, seconds
and milliseconds with `Math.floor` and `%`, then zero-pad each field.  The
argument is an IEEE binary64 value captured as the exact rational it
denotes; the divisions and the `* 1000` round to binary64 (`dDiv`/`dMul`),
while `Math.floor` and the `%` remainder are exact per IEEE 754. -/
def secondsToTimestamp (seconds : ℚ) : String :=
  let hours := (qFloor (dDiv seconds 3600)).toNat
  let minutes := (qFloor (dDiv (jsMod seconds 3600) 60)).toNat
  let secs := (qFloor (jsMod seconds 60)).toNat
  let ms := (qFloor (dMul (jsMod seconds 1) 1000)).toNat
  jsPadStart (Nat.repr hours) 2 '0' ++ ":" ++ jsPadStart (Nat.repr minutes) 2 '0'
    ++ ":" ++ jsPadStart (Nat.repr secs) 2 '0' ++ "." ++ jsPadStart (Nat.repr ms) 3 '0'

/-- List form of the regex `^\d{2}:\d{2}:\d{2}\.\d{3}$`. -/
def isValidTimestampL : List Char → Bool
  | [a, b, c1, d, e, c2, f, g, dot, h, i, j] =>
    a.isDigit && b.isDigit && c1 = ':' && d.isDigit && e.isDigit && c2 = ':' &&
    f.isDigit && g.isDigit && dot = '.' && h.isDigit && i.isDigit && j.isDigit
  | _ => false

/-- `isValidTimestamp` (timestamp-utils): full-string match of
`^\d{2}:\d{2}:\d{2}\.\d{3}$`. -/
def isValidTimestamp (timestamp : String) : Bool :=
  isValidTimestampL timestamp.toList

/-- `parseTimestampLine` (timestamp-utils): anchored match of
`^(\d{2}:\d{2}:\d{2}\.\d{3})\s*-->\s*(\d{2}:\d{2}:\d{2}\.\d{3})`, trailing
content ignored; `none` models the non-throwing `null` probe result. -/
def parseTimestampLine (line : String) : Option (String × String) :=
  let cs := line.toList
  let t1 := cs.take 12
  if isValidTimestampL t1 then
    let r1 := (cs.drop 12).dropWhile isWsChar
    if ['-', '-', '>'].isPrefixOf r1 then
      let r2 := (r1.drop 3).dropWhile isWsChar
      let t2 := r2.take 12
      if isValidTimestampL t2 then some (String.mk t1, String.mk t2) else none
    else none
  else none

/-- `estimateTokenCount` (token-counter): empty text counts 0 tokens;
otherwise the number of non-empty whitespace-separated words times 1.3,
rounded up.  (The source also computes a character count that it never
uses.) -/
def estimateTokenCount (text : String) : ℕ :=
  if text = "" then 0
  else
    let wordCount := ((jsSplitWs text).filter (fun w => w.length > 0)).length
    (qCeil ((wordCount : ℚ) * (13 / 10))).toNat

/-- `truncateToTokenLimit` (token-counter): if the estimate exceeds the
limit, cut the text to `floor(maxTokens * (length / estimate) * 0.9)`
characters and trim. -/
def truncateToTokenLimit (text : String) (maxTokens : ℕ) : String :=
  let estimatedTokens := estimateTokenCount text
  if estimatedTokens ≤ maxTokens then text
  else
    let charPerToken : ℚ := (text.length : ℚ) / (estimatedTokens : ℚ)
    let maxChars := (qFloor ((maxTokens : ℚ) * charPerToken * (9 / 10))).toNat
    jsTrim (String.mk (text.toList.take maxChars))

/-- One parsed caption cue (vtt/types `VTTSegment`). -/
structure VTTSegment where
  index : ℕ
  startTime : String
  endTime : String
  text : String
  speaker : Option String := none
deriving DecidableEq, Repr

/-- Chunk metadata (vtt/types `Chunk.metadata`). -/
structure ChunkMetadata where
  chunkIndex : ℕ
  hasOverlap : Bool
deriving DecidableEq, Repr

/-- A retrieval chunk (vtt/types `Chunk`). -/
structure Chunk where
  text : String
  startTime : String
  endTime : String
  tokenCount : ℕ
  metadata : ChunkMetadata
deriving DecidableEq, Repr

/-- Chunking configuration (vtt/types `ChunkingConfig`); the numeric fields
are the nonnegative integers the chunker is configured with. -/
structure ChunkingConfig where
  minTokens : ℕ
  maxTokens : ℕ
  overlap : ℕ
  respectBoundaries : List String
deriving DecidableEq, Repr

/-- JS `a + (a ? ' ' : '') + b`: join with a single space unless the left
part is empty. -/
def jsJoinSp (a b : String) : String :=
  if a = "" then b else a ++ " " ++ b

/-- Backward walk of `getOverlapText` over the reversed word list: take
words while the running token total stays within the overlap budget,
stopping at the first word that would overflow it. -/
def overlapTakeRev (overlapTokens : ℕ) : ℕ → List String → List String
  | _, [] => []
  | cur, w :: rest =>
    if overlapTokens ≤ cur then []
    else
      let wt := estimateTokenCount w
      if cur + wt ≤ overlapTokens then w :: overlapTakeRev overlapTokens (cur + wt) rest
      else []

/-- `getOverlapText` (chunker): empty for a zero overlap budget, otherwise
the space-join of the tail words gathered backwards within the budget. -/
def getOverlapText (text : String) (overlapTokens : ℕ) : String :=
  if overlapTokens = 0 then ""
  else
    let words := jsSplitWs text
    String.intercalate " " (overlapTakeRev overlapTokens 0 words.reverse).reverse

/-- `createChunk` (chunker): estimate the token count, truncate when it
exceeds `maxTokens`, and re-estimate the (untrimmed) final text for the
stored `tokenCount`. -/
def createChunk (text : String) (startTime endTime : String) (chunkIndex : ℕ)
    (config : ChunkingConfig) : Chunk :=
  let tokenCount := estimateTokenCount text
  let finalText :=
    if config.maxTokens < tokenCount then truncateToTokenLimit text config.maxTokens else text
  { text := jsTrim finalText
    startTime := startTime
    endTime := endTime
    tokenCount := estimateTokenCount finalText
    metadata := { chunkIndex := chunkIndex, hasOverlap := decide (0 < chunkIndex) } }

/-- Word loop of `splitLongSegment` (chunker), carried state
`(emitted chunks, current buffer, next chunk index)`. -/
def splitLongSegmentAux (segment : VTTSegment) (config : ChunkingConfig) :
    List String → List Chunk × String × ℕ → List Chunk × String × ℕ
  | [], st => st
  | w :: ws, (chunks, cur, idx) =>
    let testChunk := jsJoinSp cur w
    let testTokens := estimateTokenCount testChunk
    if config.maxTokens < testTokens ∧ cur ≠ "" then
      let chunk := createChunk cur segment.startTime segment.endTime idx config
      let overlapText := getOverlapText cur config.overlap
      splitLongSegmentAux segment config ws (chunks ++ [chunk], jsJoinSp overlapText w, idx + 1)
    else
      splitLongSegmentAux segment config ws (chunks, testChunk, idx)

/-- `splitLongSegment` (chunker): split one over-long segment word by word
into sub-chunks, all carrying the time range of that segment. -/
def splitLongSegment (segment : VTTSegment) (config : ChunkingConfig)
    (startChunkIndex : ℕ) : List Chunk :=
  let words := jsSplitWs segment.text
  let r := splitLongSegmentAux segment config words ([], "", startChunkIndex)
  if jsTrim r.2.1 ≠ "" then
    r.1 ++ [createChunk r.2.1 segment.startTime segment.endTime r.2.2 config]
  else r.1

/-- Loop state of `chunkVTT` (chunker). -/
structure ChunkState where
  chunks : List Chunk
  currentChunk : String
  currentStartTime : String
  currentEndTime : String
  chunkIndex : ℕ
deriving DecidableEq, Repr

/-- One iteration of the `chunkVTT` segment loop. -/
def chunkVTTStep (config : ChunkingConfig) (st : ChunkState) (segment : VTTSegment) :
    ChunkState :=
  let segmentText := jsTrim segment.text
  if segmentText = "" then st
  else
    let testChunk := jsJoinSp st.currentChunk segmentText
    let testTokens := estimateTokenCount testChunk
    if config.maxTokens < testTokens ∧ st.currentChunk ≠ "" then
      let chunk := createChunk st.currentChunk st.currentStartTime st.currentEndTime
        st.chunkIndex config
      let overlapText := getOverlapText st.currentChunk config.overlap
      { chunks := st.chunks ++ [chunk]
        currentChunk := jsJoinSp overlapText segmentText
        currentStartTime := segment.startTime
        currentEndTime := segment.endTime
        chunkIndex := st.chunkIndex + 1 }
    else if config.maxTokens < testTokens ∧ st.currentChunk = "" then
      let splitChunks := splitLongSegment segment config st.chunkIndex
      { chunks := st.chunks ++ splitChunks
        currentChunk := ""
        currentStartTime := st.currentStartTime
        currentEndTime := st.currentEndTime
        chunkIndex := st.chunkIndex + splitChunks.length }
    else
      { st with currentChunk := testChunk, currentEndTime := segment.endTime }

/-- `chunkVTT` (chunker): greedy single-pass packing of segments into
chunks with overlap seeding, flushing a non-empty final buffer. -/
def chunkVTT (segments : List VTTSegment) (config : ChunkingConfig) : List Chunk :=
  match segments with
  | [] => []
  | s0 :: _ =>
    let init : ChunkState :=
      { chunks := [], currentChunk := "", currentStartTime := s0.startTime
        currentEndTime := s0.endTime, chunkIndex := 0 }
    let fin := segments.foldl (chunkVTTStep config) init
    if jsTrim fin.currentChunk ≠ "" then
      fin.chunks ++
        [createChunk fin.currentChunk fin.currentStartTime fin.currentEndTime
          fin.chunkIndex config]
    else fin.chunks

/-- Result of `validateChunkingConfig` (chunker). -/
structure ValidationResult where
  isValid : Bool
  errors : List String
deriving DecidableEq, Repr

/-- `validateChunkingConfig` (chunker); with the nonnegative-integer config
model, the `overlap < 0` and `respectBoundaries is an array` checks can
never fire. -/
def validateChunkingConfig (config : ChunkingConfig) : ValidationResult :=
  let errors :=
    (if config.minTokens = 0 then ["minTokens must be greater than 0"] else []) ++
    (if config.maxTokens ≤ config.minTokens then
      ["maxTokens must be greater than minTokens"] else []) ++
    (if config.minTokens ≤ config.overlap then
      ["overlap must be less than minTokens"] else [])
  { isValid := errors.isEmpty, errors := errors }

/-- `isSequenceNumber` (parser): regex `^\d+$` against the trimmed line. -/
def isSequenceNumber (line : String) : Bool :=
  let t := (jsTrim line).toList
  !t.isEmpty && t.all Char.isDigit

/-- Inner text-collection loop of `parseVTT`: gather trimmed non-empty
lines until a timestamp line or sequence number (left for the outer loop)
or a blank line (consumed); returns the collected lines and the remaining
input. -/
def collectText : List String → List String × List String
  | [] => ([], [])
  | l :: ls =>
    let t := jsTrim l
    if (parseTimestampLine t).isSome then ([], l :: ls)
    else if isSequenceNumber t then ([], l :: ls)
    else if t = "" then ([], ls)
    else
      let r := collectText ls
      (t :: r.1, r.2)

/-- Outer line loop of `parseVTT`, fuelled by the line count (each step
consumes at least one line, so the fuel used below never runs out). -/
def parseVTTAux : ℕ → ℕ → List String → List VTTSegment
  | 0, _, _ => []
  | _ + 1, _, [] => []
  | fuel + 1, segIndex, l :: ls =>
    let line := jsTrim l
    if line = "" then parseVTTAux fuel segIndex ls
    else if isSequenceNumber line then parseVTTAux fuel segIndex ls
    else if line = "WEBVTT" then parseVTTAux fuel segIndex ls
    else
      match parseTimestampLine line with
      | none => parseVTTAux fuel segIndex ls
      | some (startTime, endTime) =>
        if ¬(isValidTimestamp startTime ∧ isValidTimestamp endTime) then
          parseVTTAux fuel segIndex ls
        else
          let r := collectText ls
          if r.1 ≠ [] then
            let text := jsTrim (String.intercalate " " r.1)
            if 0 < text.length then
              { index := segIndex, startTime := startTime, endTime := endTime,
                text := text } :: parseVTTAux fuel (segIndex + 1) r.2
            else parseVTTAux fuel segIndex r.2
          else parseVTTAux fuel segIndex r.2

/-- `parseVTT` (parser): throw on empty input, otherwise split into lines
and run the cue-scanning loop. -/
def parseVTT (content : String) : Except String (List VTTSegment) :=
  if content = "" then .error "Invalid VTT content: must be a non-empty string"
  else
    let lines := jsSplitOn '\n' content
    .ok (parseVTTAux (lines.length + 1) 0 lines)

/-- ASCII word character, the regex class `\w`. -/
def isWordChar (c : Char) : Bool :=
  c.isAlpha || c.isDigit || c = '_'

/-- The backquote character (written by code point to keep the file free of
literal backquotes). -/
def btChar : Char := Char.ofNat 96

/-- The apostrophe character (written by code point). -/
def apoChar : Char := Char.ofNat 39

/-- Match a literal at the head of the input, returning the remainder. -/
def matchLit (lit : List Char) (cs : List Char) : Option (List Char) :=
  if lit.isPrefixOf cs then some (cs.drop lit.length) else none

/-- Match one-or-more characters of a class at the head of the input
(greedy), returning the remainder. -/
def matchPlus (p : Char → Bool) (cs : List Char) : Option (List Char) :=
  if (cs.takeWhile p).isEmpty then none else some (cs.dropWhile p)

/-- After an opening fence, consume lazily up to and through the next
triple backquote. -/
def findCloseFence : List Char → Option (List Char)
  | [] => none
  | c :: rest =>
    if [btChar, btChar, btChar].isPrefixOf (c :: rest) then some (rest.drop 2)
    else findCloseFence rest

/-- Anchored match of the pattern for a fenced code block. -/
def matchAtFence (cs : List Char) : Option (List Char) := do
  let r ← matchLit [btChar, btChar, btChar] cs
  findCloseFence r

/-- Anchored match of keyword, one-or-more whitespace, one-or-more word
characters (the `function\s+\w+` / `class\s+\w+` / `def\s+\w+` shapes). -/
def matchKwWsWord (kw : String) (cs : List Char) : Option (List Char) := do
  let r1 ← matchLit kw.toList cs
  let r2 ← matchPlus isWsChar r1
  matchPlus isWordChar r2

/-- End position just past the last occurrence of a literal inside a
region, if any (the greedy `.*from` backtracking target). -/
def lastOccEnd (lit : List Char) (region : List Char) : Option ℕ :=
  match ((List.range (region.length + 1)).filter
      (fun i => lit.isPrefixOf (region.drop i))).getLast? with
  | none => none
  | some i => some (i + lit.length)

/-- Anchored match of `import\s+.*from` (the dot does not cross a
newline, and the greedy star reaches the last `from` on the line). -/
def matchAtImport (cs : List Char) : Option (List Char) := do
  let r1 ← matchLit "import".toList cs
  let r2 ← matchPlus isWsChar r1
  let region := r2.takeWhile (fun c => c ≠ '\n')
  let e ← lastOccEnd "from".toList region
  some (r2.drop e)

/-- Anchored match of `kw\s+\w+\s*=` (the `const`/`let` declaration
shapes). -/
def matchAssign (kw : String) (cs : List Char) : Option (List Char) := do
  let r1 ← matchLit kw.toList cs
  let r2 ← matchPlus isWsChar r1
  let r3 ← matchPlus isWordChar r2
  matchLit ['='] (r3.dropWhile isWsChar)

/-- Anchored match of the file-extension alternation
`\.py|\.js|\.ts|\.jsx|\.tsx` in source order (so `.jsx` is consumed as
`.js` plus a leftover `x`, exactly as the JS regex behaves). -/
def matchAtExt (cs : List Char) : Option (List Char) :=
  matchLit ".py".toList cs <|> matchLit ".js".toList cs <|> matchLit ".ts".toList cs <|>
    matchLit ".jsx".toList cs <|> matchLit ".tsx".toList cs

/-- Anchored match of `npm\s+install|pip\s+install`. -/
def matchAtPkg (cs : List Char) : Option (List Char) :=
  (do
    let r1 ← matchLit "npm".toList cs
    let r2 ← matchPlus isWsChar r1
    matchLit "install".toList r2) <|>
  (do
    let r1 ← matchLit "pip".toList cs
    let r2 ← matchPlus isWsChar r1
    matchLit "install".toList r2)

/-- Anchored match of `docker|kubernetes|k8s`. -/
def matchAtContainer (cs : List Char) : Option (List Char) :=
  matchLit "docker".toList cs <|> matchLit "kubernetes".toList cs <|>
    matchLit "k8s".toList cs

/-- Count the non-overlapping left-to-right matches of an anchored matcher,
the way a global JS regex advances `lastIndex`; fuelled by the text length
(every step consumes at least one character). -/
def countMatchesAux (m : List Char → Option (List Char)) : ℕ → List Char → ℕ
  | 0, _ => 0
  | _ + 1, [] => 0
  | fuel + 1, c :: cs =>
    match m (c :: cs) with
    | some rest => 1 + countMatchesAux m fuel rest
    | none => countMatchesAux m fuel cs

/-- Number of matches of an anchored matcher in a text. -/
def countMatches (m : List Char → Option (List Char)) (text : String) : ℕ :=
  countMatchesAux m (text.length + 1) text.toList

/-- The ten `codeIndicators` pattern families of the reranker, in source
order. -/
def codeIndicators : List (List Char → Option (List Char)) :=
  [matchAtFence, matchKwWsWord "function", matchKwWsWord "class", matchAtImport,
    matchAssign "const", matchAssign "let", matchKwWsWord "def", matchAtExt,
    matchAtPkg, matchAtContainer]

/-- The `technicalKeywords` trigger list of the reranker. -/
def technicalKeywords : List String :=
  ["code", "function", "class", "import", "programming", "development",
    "api", "database", "sql", "javascript", "python", "react", "node",
    "docker", "kubernetes", "git", "github", "deployment", "server"]

/-- Does the lowercased query contain a technical-keyword trigger? -/
def isTechnicalQuery (queryLower : String) : Bool :=
  technicalKeywords.any (fun keyword => jsIncludes queryLower keyword)

/-- `calculateCodePresenceBoost` (reranker): zero without a technical
trigger in the query; otherwise each pattern family with `n > 0` matches
adds `min (n * 0.01) 0.02`, and the total is capped at `0.08`. -/
def calculateCodePresenceBoost (text : String) (queryLower : String) : ℚ :=
  if !isTechnicalQuery queryLower then 0
  else
    let codeScore := codeIndicators.foldl
      (fun acc m =>
        let n := countMatches m text
        if 0 < n then acc + jsMin ((n : ℚ) * (1 / 100)) (2 / 100) else acc) 0
    jsMin codeScore (8 / 100)

/-- The metadata fields of a search result that the reranker reads
(`Record<string, any>` in the source; absent fields are `none`). -/
structure ResultMetadata where
  created_at : Option String := none
  lectureTitle : Option String := none
  resourceTitle : Option String := none
  instructor : Option String := none
  author : Option String := none
  type : Option String := none
  url : Option String := none
deriving DecidableEq, Repr

/-- The lecture-or-resource tag of a search result. -/
inductive ResultType
  | lecture
  | resource
deriving DecidableEq, Repr

/-- Reranker input (`SearchResult`), `similarity` an arbitrary rational as
the source type puts no bound on the number. -/
structure SearchResult where
  id : String
  type : ResultType
  text : String
  similarity : ℚ
  metadata : ResultMetadata
deriving DecidableEq, Repr

/-- Per-dimension score contributions (`RankingFactors`). -/
structure RankingFactors where
  vectorSimilarity : ℚ
  recencyBoost : ℚ
  metadataMatch : ℚ
  codePresence : ℚ
  resourceTypeRelevance : ℚ
  titleRelevance : ℚ
deriving DecidableEq, Repr

/-- Reranker output element (`RerankedResult`). -/
structure RerankedResult extends SearchResult where
  finalScore : ℚ
  rankingFactors : RankingFactors
deriving DecidableEq, Repr

/-- The three feature toggles of `rerankResults`, all defaulting to true. -/
structure RerankOptions where
  boostRecent : Bool := true
  boostTechnical : Bool := true
  boostTitles : Bool := true
deriving DecidableEq, Repr

/-- Days in a month of the proleptic Gregorian calendar. -/
def daysInMonth (y m : ℤ) : ℤ :=
  if m = 2 then (if y % 4 = 0 ∧ (y % 100 ≠ 0 ∨ y % 400 = 0) then 29 else 28)
  else if m = 4 ∨ m = 6 ∨ m = 9 ∨ m = 11 then 30
  else 31

/-- Days since 1970-01-01 of a civil date (standard era/year-of-era
computation over the proleptic Gregorian calendar). -/
def daysFromCivil (y m d : ℤ) : ℤ :=
  let y2 := if m ≤ 2 then y - 1 else y
  let era := (if 0 ≤ y2 then y2 else y2 - 399) / 400
  let yoe := y2 - era * 400
  let mp := (m + 9) % 12
  let doy := (153 * mp + 2) / 5 + d - 1
  let doe := yoe * 365 + yoe / 4 - yoe / 100 + doy
  era * 146097 + doe - 719468

/-- Numeric value of a fixed-width digit run. -/
def digitsNat (ds : List Char) : ℕ :=
  ds.foldl (fun a c => 10 * a + (c.toNat - 48)) 0

/-- Models `new Date(s).getTime()` for the ISO-8601 UTC shape
`YYYY-MM-DDTHH:MM:SS.sssZ`: the epoch-millisecond value, or `none`
(Invalid Date / `NaN`) when the string does not match the shape or a
component is out of range. -/
def parseISODate (s : String) : Option ℚ :=
  match s.toList with
  | [y1, y2, y3, y4, h1, mo1, mo2, h2, d1, d2, t, hh1, hh2, c1, mi1, mi2, c2,
      ss1, ss2, dot, ms1, ms2, ms3, z] =>
    if ([y1, y2, y3, y4, mo1, mo2, d1, d2, hh1, hh2, mi1, mi2, ss1, ss2, ms1,
          ms2, ms3].all Char.isDigit) ∧
        h1 = '-' ∧ h2 = '-' ∧ t = 'T' ∧ c1 = ':' ∧ c2 = ':' ∧ dot = '.' ∧ z = 'Z' then
      let y : ℤ := digitsNat [y1, y2, y3, y4]
      let mo : ℤ := digitsNat [mo1, mo2]
      let d : ℤ := digitsNat [d1, d2]
      let hh : ℤ := digitsNat [hh1, hh2]
      let mi : ℤ := digitsNat [mi1, mi2]
      let ss : ℤ := digitsNat [ss1, ss2]
      let ms : ℤ := digitsNat [ms1, ms2, ms3]
      if 1 ≤ mo ∧ mo ≤ 12 ∧ 1 ≤ d ∧ d ≤ daysInMonth y mo ∧ mi ≤ 59 ∧ ss ≤ 59 ∧
          (hh ≤ 23 ∨ (hh = 24 ∧ mi = 0 ∧ ss = 0 ∧ ms = 0)) then
        some (((daysFromCivil y mo d * 86400000 + hh * 3600000 + mi * 60000 +
          ss * 1000 + ms : ℤ) : ℚ))
      else none
    else none
  | _ => none

/-- `calculateRecencyBoost` (reranker): the current clock made explicit as
`now` (epoch milliseconds, the value `new Date().getTime()` would read);
missing or empty timestamp contributes 0, an unparseable one lands in the
final `else` (every `NaN` comparison is false) and still contributes 0.02. -/
def calculateRecencyBoost (now : ℚ) (createdAt : Option String) : ℚ :=
  match createdAt with
  | none => 0
  | some ca =>
    if ca = "" then 0
    else
      match parseISODate ca with
      | none => 2 / 100
      | some created =>
        let daysSinceCreation := (now - created) / 86400000
        if daysSinceCreation < 30 then (1 / 10) * (1 - daysSinceCreation / 30)
        else if daysSinceCreation < 90 then
          (5 / 100) * (1 - (daysSinceCreation - 30) / 60)
        else 2 / 100

/-- JS `a || b` on strings: the empty string is falsy. -/
def jsOrStr (a b : String) : String :=
  if a = "" then b else a

/-- The title fallback chain over lecture title, resource title and the
empty string. -/
def titleOf (m : ResultMetadata) : String :=
  jsOrStr (m.lectureTitle.getD "") (jsOrStr (m.resourceTitle.getD "") "")

/-- `calculateMetadataMatch` (reranker): full-substring title match gives
0.1, otherwise a partial word-overlap fraction of 0.05; an instructor or
author substring match adds 0.05; capped at 0.15. -/
def calculateMetadataMatch (result : SearchResult) (queryLower : String) : ℚ :=
  let title := titleOf result.metadata
  let instructor := result.metadata.instructor.getD ""
  let author := result.metadata.author.getD ""
  let base : ℚ :=
    if jsIncludes (jsToLower title) queryLower then 1 / 10
    else
      let titleWords := jsSplitWs (jsToLower title)
      let qws := jsSplitWs queryLower
      let matching := qws.filter
        (fun w => titleWords.any (fun tw => jsIncludes tw w || jsIncludes w tw))
      ((matching.length : ℚ) / (qws.length : ℚ)) * (5 / 100)
  let score := base +
    (if jsIncludes (jsToLower instructor) queryLower ||
        jsIncludes (jsToLower author) queryLower then 5 / 100 else 0)
  jsMin score (15 / 100)

/-- `calculateResourceTypeRelevance` (reranker): four independent category
checks, each gated on the declared sub-type or URL and on category trigger
words in the query; capped at 0.12. -/
def calculateResourceTypeRelevance (result : SearchResult) (queryLower : String) : ℚ :=
  let resourceType := result.metadata.type.getD ""
  let url := result.metadata.url.getD ""
  let s1 : ℚ :=
    if (resourceType = "github" || jsIncludes url "github.com") &&
        (["github", "repository", "repo", "code", "development", "git"].any
          (fun k => jsIncludes queryLower k)) then 6 / 100 else 0
  let s2 : ℚ :=
    if (resourceType = "youtube" || jsIncludes url "youtube.com" ||
        jsIncludes url "youtu.be") &&
        (["video", "tutorial", "watch", "demo", "presentation", "lecture"].any
          (fun k => jsIncludes queryLower k)) then 6 / 100 else 0
  let s3 : ℚ :=
    if (resourceType = "blog" || jsIncludes url "blog" || jsIncludes url "medium.com") &&
        (["article", "blog", "post", "guide", "tutorial", "documentation"].any
          (fun k => jsIncludes queryLower k)) then 6 / 100 else 0
  let s4 : ℚ :=
    if resourceType = "rss" &&
        (["news", "update", "feed", "rss", "latest"].any
          (fun k => jsIncludes queryLower k)) then 4 / 100 else 0
  jsMin (s1 + s2 + s3 + s4) (12 / 100)

/-- `calculateTitleRelevance` (reranker): fraction of the filtered query
words appearing in (or containing) some title word, scaled to 0.1. -/
def calculateTitleRelevance (result : SearchResult) (queryWords : List String) : ℚ :=
  let title := titleOf result.metadata
  if title = "" then 0
  else
    let titleWords := jsSplitWs (jsToLower title)
    let matchingWords := (queryWords.filter
      (fun qw => titleWords.any (fun tw => jsIncludes tw qw || jsIncludes qw tw))).length
    if matchingWords = 0 then 0
    else jsMin (((matchingWords : ℚ) / (queryWords.length : ℚ)) * (1 / 10)) (1 / 10)

/-- The per-candidate body of `rerankResults.map`: accumulate the five
boosts onto the base similarity and cap the final score at 1. -/
def scoreResult (options : RerankOptions) (now : ℚ) (queryLower : String)
    (queryWords : List String) (result : SearchResult) : RerankedResult :=
  let recencyBoost :=
    if options.boostRecent then calculateRecencyBoost now result.metadata.created_at else 0
  let metadataMatch := calculateMetadataMatch result queryLower
  let codePresence :=
    if options.boostTechnical then calculateCodePresenceBoost result.text queryLower else 0
  let resourceTypeRelevance := calculateResourceTypeRelevance result queryLower
  let titleRelevance :=
    if options.boostTitles then calculateTitleRelevance result queryWords else 0
  let finalScore := result.similarity + recencyBoost + metadataMatch + codePresence +
    resourceTypeRelevance + titleRelevance
  { toSearchResult := result
    finalScore := jsMin finalScore 1
    rankingFactors :=
      { vectorSimilarity := result.similarity
        recencyBoost := recencyBoost
        metadataMatch := metadataMatch
        codePresence := codePresence
        resourceTypeRelevance := resourceTypeRelevance
        titleRelevance := titleRelevance } }

/-- Insertion step of the stable descending sort on `finalScore`
(`.sort((a, b) => b.finalScore - a.finalScore)`). -/
def insertByScore (x : RerankedResult) : List RerankedResult → List RerankedResult
  | [] => [x]
  | y :: ys => if x.finalScore ≤ y.finalScore then y :: insertByScore x ys else x :: y :: ys

/-- Stable sort of reranked results by descending `finalScore`. -/
def sortByScoreDesc (l : List RerankedResult) : List RerankedResult :=
  l.foldl (fun acc x => insertByScore x acc) []

/-- `rerankResults` (reranker): lowercase the query, keep its words longer
than two characters, score every candidate and sort descending by final
score.  The ambient clock read by the recency factor is the explicit `now`
argument. -/
def rerankResults (results : List SearchResult) (query : String)
    (options : RerankOptions) (now : ℚ) : List RerankedResult :=
  let queryLower := jsToLower query
  let queryWords := (jsSplitWs queryLower).filter (fun w => 2 < w.length)
  sortByScoreDesc (results.map (scoreResult options now queryLower queryWords))

/-- The contraction keyword for announcing coverage (apostrophe written by
code point). -/
def kwWellCover : String := "we" ++ String.singleton apoChar ++ "ll cover"

/-- The contraction keyword for starting. -/
def kwLetsStart : String := "let" ++ String.singleton apoChar ++ "s start"

/-- The contraction keyword for beginning. -/
def kwLetsBegin : String := "let" ++ String.singleton apoChar ++ "s begin"

/-- `LECTURE_START_KEYWORDS` (intro-detector), in source order. -/
def lectureStartKeywords : List String :=
  ["today", kwWellCover, kwLetsStart, "agenda", "welcome to", "in this lecture",
    "we will learn", "our topic today", kwLetsBegin, "first", "introduction"]

/-- `containsLectureKeywords` (intro-detector). -/
def containsLectureKeywords (text : String) : Bool :=
  lectureStartKeywords.any (fun keyword => jsIncludes text keyword)

/-- Keyword tier of `findLectureStart`: first index whose lowercased text
is longer than 20 characters and contains a lecture keyword. -/
def findKeywordTier : ℕ → List VTTSegment → Option ℕ
  | _, [] => none
  | i, s :: rest =>
    let text := jsToLower s.text
    if 20 < text.length ∧ containsLectureKeywords text then some i
    else findKeywordTier (i + 1) rest

/-- Time-fallback tier of `findLectureStart`: first index whose start
offset exceeds 600 seconds and whose text is longer than 50 characters; a
malformed start timestamp propagates the codec error, exactly as the
uncaught JS throw would. -/
def findTimeTier : ℕ → List VTTSegment → Except String (Option ℕ)
  | _, [] => .ok none
  | i, s :: rest => do
    let t ← timestampToSeconds s.startTime
    if jsGtQ t 600 ∧ 50 < s.text.length then .ok (some i)
    else findTimeTier (i + 1) rest

/-- `findLectureStart` (intro-detector): keyword tier over the first 20
segments, then the 10-minute fallback, then index 0. -/
def findLectureStart (segments : List VTTSegment) : Except String ℕ :=
  if segments.length = 0 then .ok 0
  else
    match findKeywordTier 0 (segments.take 20) with
    | some i => .ok i
    | none => do
      match (← findTimeTier 0 segments) with
      | some i => .ok i
      | none => .ok 0

/-- Confidence levels of the intro analysis. -/
inductive Confidence
  | high
  | medium
  | low
deriving DecidableEq, Repr

/-- Result record of `analyzeIntroContent`; `introDuration` is `Option ℚ`
because the duration inherits a possible `NaN` from the codec. -/
structure IntroAnalysis where
  hasIntro : Bool
  introDuration : Option ℚ
  lectureStartIndex : ℕ
  confidence : Confidence
deriving DecidableEq, Repr

/-- `analyzeIntroContent` (intro-detector): early low-confidence return for
index 0; otherwise the offset of the start segment becomes the intro duration
and the confidence is `high` when the index is below 20, `medium` when the
duration is under 15 minutes, `low` otherwise. -/
def analyzeIntroContent (segments : List VTTSegment) : Except String IntroAnalysis := do
  let lectureStartIndex ← findLectureStart segments
  if lectureStartIndex = 0 then
    .ok { hasIntro := false, introDuration := some 0, lectureStartIndex := 0,
          confidence := .low }
  else
    match segments.get? lectureStartIndex with
    | none => .error "TypeError: segment index out of range"
    | some seg => do
      let introDuration ← timestampToSeconds seg.startTime
      let confidence : Confidence :=
        if lectureStartIndex < 20 then .high
        else if jsLtQ introDuration (15 * 60) then .medium
        else .low
      .ok { hasIntro := true, introDuration := introDuration,
            lectureStartIndex := lectureStartIndex, confidence := confidence }

/-- Number of non-empty whitespace-separated words, the quantity the token
estimate is computed from. -/
def wcount (s : String) : ℕ :=
  ((jsSplitWs s).filter (fun w => w.length > 0)).length

/-- Modelled from the spec: the code-presence boost as the claim reads it,
adding 0.01 once per pattern family matched (never more per family), total
capped at 0.08.  Compared against the embedded `calculateCodePresenceBoost`. -/
def specCodePresenceBoost (text : String) (queryLower : String) : ℚ :=
  if isTechnicalQuery queryLower then
    jsMin (((codeIndicators.filter (fun m => 0 < countMatches m text)).length : ℚ) * (1 / 100))
      (8 / 100)
  else 0

/-- A valid chunking configuration on which the truncation fallback fails
to enforce the token budget. -/
def cx1Cfg : ChunkingConfig :=
  { minTokens := 3, maxTokens := 4, overlap := 2, respectBoundaries := [] }

/-- Segments whose overlap-seeded middle chunk exceeds the budget even
after truncation: short words in front, one long word behind. -/
def cx1Segs : List VTTSegment :=
  [ { index := 0, startTime := "00:00:00.000", endTime := "00:00:05.000", text := "p q a" },
    { index := 1, startTime := "00:00:05.000", endTime := "00:00:10.000",
      text := "b c d eeeeeeee" },
    { index := 2, startTime := "00:00:10.000", endTime := "00:00:12.000", text := "f" } ]

/-- A valid chunking configuration under which a first segment alone
overflows the budget and is split. -/
def cx5Cfg : ChunkingConfig :=
  { minTokens := 1, maxTokens := 2, overlap := 0, respectBoundaries := [] }

/-- An over-long first segment followed by a normal one: the chunk built
from the second segment keeps the stale start time of the first. -/
def cx5Segs : List VTTSegment :=
  [ { index := 0, startTime := "00:00:00.000", endTime := "00:00:05.000", text := "aaa bbb" },
    { index := 1, startTime := "00:00:10.000", endTime := "00:00:15.000", text := "ccc" } ]

/-- A transcript with a digit-only cue line, a standalone digit-only text
line, and a cue text carrying an embedded number. -/
def cx9 : String :=
  "WEBVTT\n\n1\n00:00:00.000 --> 00:00:02.000\nStep 7 begins\n\n7\n" ++
    "00:00:02.000 --> 00:00:04.000\nhello\n"

/-- Segments with no lecture keyword anywhere: the fallback tier fires at
index 1 (offset 660 s, text longer than 50 characters). -/
def cx7Segs : List VTTSegment :=
  [ { index := 0, startTime := "00:00:00.000", endTime := "00:00:03.000",
      text := "hello there." },
    { index := 1, startTime := "00:11:00.000", endTime := "00:11:10.000",
      text := "the quick brown fox jumps over the lazy dog near the river bank yes" } ]

/-- A search result with negative upstream similarity and no metadata. -/
def cx2Res : SearchResult :=
  { id := "r1", type := .lecture, text := "", similarity := -1/2, metadata := {} }

/-- A search result with nonnegative similarity, used to instantiate the
boundedness theorem. -/
def cxW2Res : SearchResult :=
  { id := "r2", type := .resource, text := "plain text", similarity := 1/2, metadata := {} }

/-- A search result carrying a creation timestamp, so that the recency
factor reads the clock. -/
def cx4Res : SearchResult :=
  { id := "r4", type := .lecture, text := "", similarity := 0,
    metadata := { created_at := some "1970-01-01T00:00:00.000Z" } }

/-- Options with the recency toggle off. -/
def cxOptsNoRecent : RerankOptions :=
  { boostRecent := false, boostTechnical := true, boostTitles := true }

/-- The candidate text of the code-presence counterexample: one pattern
family (`function\s+\w+`) matched twice. -/
def cx8Text : String := "function foo function bar"

/-- Lines gathered by the text-collection loop are never sequence numbers
and never empty: a digit-only line always ends collection instead of being
collected. -/
theorem collectText_not_seq (ls : List String) :
    ∀ t ∈ (collectText ls).1, isSequenceNumber t = false ∧ t ≠ "" := by
  induction ls with
  | nil => intro t ht; simp [collectText] at ht
  | cons l ls ih =>
    intro t ht
    simp only [collectText] at ht
    by_cases h1 : (parseTimestampLine (jsTrim l)).isSome = true
    · rw [if_pos h1] at ht
      simp at ht
    · rw [if_neg h1] at ht
      by_cases h2 : isSequenceNumber (jsTrim l) = true
      · rw [if_pos h2] at ht
        simp at ht
      · rw [if_neg h2] at ht
        by_cases h3 : jsTrim l = ""
        · rw [if_pos h3] at ht
          simp at ht
        · rw [if_neg h3] at ht
          simp only [List.mem_cons] at ht
          rcases ht with rfl | ht
          · exact ⟨by simpa using h2, h3⟩
          · exact ih t ht

/-- C9: `parseVTT` drops a line as a cue sequence number exactly when the
whole trimmed line is digits: collected cue text never contains such a
line, the transcript `cx9` keeps the text line "Step 7 begins" verbatim
while the standalone line "7" appears in no segment, and the digit-only
test classifies the two lines accordingly. -/
theorem c9_sequence_number_filtering :
    (∀ ls : List String, ∀ t ∈ (collectText ls).1, isSequenceNumber t = false ∧ t ≠ "") ∧
    parseVTT cx9 = .ok
      [ { index := 0, startTime := "00:00:00.000", endTime := "00:00:02.000",
          text := "Step 7 begins" },
        { index := 1, startTime := "00:00:02.000", endTime := "00:00:04.000",
          text := "hello" } ] ∧
    isSequenceNumber "7" = true ∧ isSequenceNumber "Step 7 begins" = false :=
  ⟨collectText_not_seq, by decide, by decide, by decide⟩

/-- C9 witness: the concrete transcript evaluation extracted from the
theorem. -/
theorem c9_witness :
    parseVTT cx9 = .ok
      [ { index := 0, startTime := "00:00:00.000", endTime := "00:00:02.000",
          text := "Step 7 begins" },
        { index := 1, startTime := "00:00:02.000", endTime := "00:00:04.000",
          text := "hello" } ] :=
  c9_sequence_number_filtering.2.1

/-- C1: on the valid configuration `cx1Cfg` (maxTokens 4) the middle chunk
of `chunkVTT cx1Segs cx1Cfg` — not the last — carries tokenCount 6 > 4:
the character-ratio truncation kept four short words, so the re-estimated
count still exceeds the budget. -/
theorem c1_truncation_misses_budget :
    (validateChunkingConfig cx1Cfg).isValid = true ∧
    cx1Cfg.maxTokens = 4 ∧
    (chunkVTT cx1Segs cx1Cfg).map Chunk.tokenCount = [4, 6, 3] :=
  ⟨by decide, by decide, by decide⟩

/-- C5: after the over-long first segment of `cx5Segs` is split, the chunk
assembled from the fresh second segment ("ccc", starting at 00:00:10.000)
is emitted with the stale start time 00:00:00.000 of the first segment. -/
theorem c5_stale_start_time :
    (validateChunkingConfig cx5Cfg).isValid = true ∧
    cx5Segs.map VTTSegment.startTime = ["00:00:00.000", "00:00:10.000"] ∧
    (chunkVTT cx5Segs cx5Cfg).map (fun c => (c.text, c.startTime)) =
      [("aaa", "00:00:00.000"), ("bbb", "00:00:00.000"), ("ccc", "00:00:00.000")] :=
  ⟨by decide, by decide, by decide⟩

/-- C6 counterexample: on "aa:bb:cc" (exactly two colons, non-numeric
groups) `timestampToSeconds` does not raise: it returns the `NaN` value
`none`. -/
theorem c6_counterexample : timestampToSeconds "aa:bb:cc" = .ok none := by decide

/-- C8 counterexample: on a text matching one pattern family twice, the
code adds 0.02 for that family while the per-family 0.01 reading of the claim
predicts 0.01. -/
theorem c8_counterexample :
    calculateCodePresenceBoost cx8Text "code" = 1/50 ∧
    specCodePresenceBoost cx8Text "code" = 1/100 ∧ ((1 : ℚ)/50 ≠ 1/100) :=
  ⟨by decide, by decide, by decide⟩

/-- C2 counterexample: a result with negative upstream similarity is
reranked to a negative final score, outside [0, 1]. -/
theorem c2_counterexample :
    (rerankResults [cx2Res] "zzzz" {} 0).map RerankedResult.finalScore = [-9/20] ∧
    ¬(0 ≤ (-9/20 : ℚ)) :=
  ⟨by decide, by decide⟩

/-- C4 counterexample: two invocations of `rerankResults` that differ only
in the ambient clock instant return different outputs, because the recency
factor reads the clock. -/
theorem c4_counterexample :
    rerankResults [cx4Res] "q" {} 0 ≠ rerankResults [cx4Res] "q" {} 7776000000 := by
  decide

/-- C7 counterexample: on `cx7Segs` the keyword tier matches nothing and
the 10-minute fallback fires at index 1, yet the reported confidence is
`high` — the claimed rule that high holds exactly for keyword-tier results
fails. -/
theorem c7_counterexample :
    findKeywordTier 0 (cx7Segs.take 20) = none ∧
    analyzeIntroContent cx7Segs = .ok
      { hasIntro := true, introDuration := some 660, lectureStartIndex := 1,
        confidence := .high } :=
  ⟨by decide, by decide⟩

/-- `jsMin` agrees with the order-theoretic minimum. -/
theorem jsMin_eq (a b : ℚ) : jsMin a b = min a b := by
  unfold jsMin
  exact (min_def a b).symm

/-- `jsMin` is bounded by its right argument. -/
theorem jsMin_le_right (a b : ℚ) : jsMin a b ≤ b := by
  rw [jsMin_eq]
  exact min_le_right a b

/-- `jsMin` of nonnegatives is nonnegative. -/
theorem jsMin_nonneg {a b : ℚ} (ha : 0 ≤ a) (hb : 0 ≤ b) : 0 ≤ jsMin a b := by
  rw [jsMin_eq]
  exact le_min ha hb

/-- The recency boost is nonnegative for every clock instant and every
creation-timestamp field. -/
theorem calculateRecencyBoost_nonneg (now : ℚ) (ca : Option String) :
    0 ≤ calculateRecencyBoost now ca := by
  unfold calculateRecencyBoost
  rcases ca with _ | ca
  · simp
  · by_cases h : ca = ""
    · simp [h]
    · simp only [h, if_false]
      rcases hp : parseISODate ca with _ | created
      · norm_num
      · dsimp only
        by_cases h30 : (now - created) / 86400000 < 30
        · rw [if_pos h30]
          have h1 : (now - created) / 86400000 / 30 < 1 :=
            (div_lt_one (by norm_num)).mpr h30
          nlinarith
        · rw [if_neg h30]
          by_cases h90 : (now - created) / 86400000 < 90
          · rw [if_pos h90]
            have h1 : ((now - created) / 86400000 - 30) / 60 < 1 :=
              (div_lt_one (by norm_num)).mpr (by linarith)
            nlinarith
          · rw [if_neg h90]
            norm_num

/-- The metadata-match boost is nonnegative. -/
theorem calculateMetadataMatch_nonneg (r : SearchResult) (q : String) :
    0 ≤ calculateMetadataMatch r q := by
  unfold calculateMetadataMatch
  refine jsMin_nonneg (add_nonneg ?_ ?_) (by norm_num)
  · split
    · norm_num
    · positivity
  · split
    · norm_num
    · exact le_rfl

/-- The code-presence boost is nonnegative. -/
theorem calculateCodePresenceBoost_nonneg (text q : String) :
    0 ≤ calculateCodePresenceBoost text q := by
  unfold calculateCodePresenceBoost
  split
  · exact le_rfl
  · refine jsMin_nonneg ?_ (by norm_num)
    suffices h : ∀ (L : List (List Char → Option (List Char))) (acc : ℚ), 0 ≤ acc →
        0 ≤ L.foldl (fun acc m =>
          let n := countMatches m text
          if 0 < n then acc + jsMin ((n : ℚ) * (1 / 100)) (2 / 100) else acc) acc by
      exact h codeIndicators 0 le_rfl
    intro L
    induction L with
    | nil => intro acc hacc; simpa using hacc
    | cons m ms ih =>
      intro acc hacc
      simp only [List.foldl_cons]
      apply ih
      dsimp only
      split
      · exact add_nonneg hacc (jsMin_nonneg (by positivity) (by norm_num))
      · exact hacc

/-- The resource-type boost is nonnegative. -/
theorem calculateResourceTypeRelevance_nonneg (r : SearchResult) (q : String) :
    0 ≤ calculateResourceTypeRelevance r q := by
  unfold calculateResourceTypeRelevance
  dsimp only
  refine jsMin_nonneg ?_ (by norm_num)
  refine add_nonneg (add_nonneg (add_nonneg ?_ ?_) ?_) ?_ <;> split <;> norm_num

/-- The title-relevance boost is nonnegative. -/
theorem calculateTitleRelevance_nonneg (r : SearchResult) (qw : List String) :
    0 ≤ calculateTitleRelevance r qw := by
  unfold calculateTitleRelevance
  dsimp only
  split
  · exact le_rfl
  · split
    · exact le_rfl
    · exact jsMin_nonneg (by positivity) (by norm_num)

/-- Membership through the insertion step of the sort. -/
theorem mem_insertByScore {x y : RerankedResult} {l : List RerankedResult} :
    x ∈ insertByScore y l ↔ x = y ∨ x ∈ l := by
  induction l with
  | nil => simp [insertByScore]
  | cons z zs ih =>
    unfold insertByScore
    split
    · simp only [List.mem_cons, ih]
      tauto
    · simp only [List.mem_cons]

/-- Membership through the whole stable sort. -/
theorem mem_sortByScoreDesc {x : RerankedResult} {l : List RerankedResult} :
    x ∈ sortByScoreDesc l ↔ x ∈ l := by
  suffices h : ∀ (l acc : List RerankedResult),
      x ∈ l.foldl (fun acc y => insertByScore y acc) acc ↔ x ∈ acc ∨ x ∈ l by
    have := h l []
    simpa [sortByScoreDesc] using this
  intro l
  induction l with
  | nil => intro acc; simp
  | cons y ys ih =>
    intro acc
    simp only [List.foldl_cons, ih, mem_insertByScore, List.mem_cons]
    tauto

/-- C2 (amended): every reranked final score is at most 1, and when every
input similarity is nonnegative (in particular when similarities lie in
[0, 1], as upstream vector search provides) every final score lies in
[0, 1].  Without that hypothesis the lower bound fails, see the
counterexample. -/
theorem c2_finalScore_bounds (results : List SearchResult) (query : String)
    (options : RerankOptions) (now : ℚ) (r : RerankedResult)
    (hr : r ∈ rerankResults results query options now) :
    r.finalScore ≤ 1 ∧ ((∀ s ∈ results, 0 ≤ s.similarity) → 0 ≤ r.finalScore) := by
  unfold rerankResults at hr
  rw [mem_sortByScoreDesc] at hr
  obtain ⟨s, hs, rfl⟩ := List.mem_map.mp hr
  constructor
  · exact jsMin_le_right _ _
  · intro hsim
    refine jsMin_nonneg ?_ (by norm_num)
    have h0 : 0 ≤ s.similarity := hsim s hs
    have h1 : 0 ≤ (if options.boostRecent then
        calculateRecencyBoost now s.metadata.created_at else 0) := by
      split
      · exact calculateRecencyBoost_nonneg _ _
      · exact le_rfl
    have h2 := calculateMetadataMatch_nonneg s (jsToLower query)
    have h3 : 0 ≤ (if options.boostTechnical then
        calculateCodePresenceBoost s.text (jsToLower query) else 0) := by
      split
      · exact calculateCodePresenceBoost_nonneg _ _
      · exact le_rfl
    have h4 := calculateResourceTypeRelevance_nonneg s (jsToLower query)
    have h5 : 0 ≤ (if options.boostTitles then
        calculateTitleRelevance s ((jsSplitWs (jsToLower query)).filter
          (fun w => 2 < w.length)) else 0) := by
      split
      · exact calculateTitleRelevance_nonneg _ _
      · exact le_rfl
    linarith

/-- C2 witness: the bounds instantiated on a concrete single-result call. -/
theorem c2_witness :
    (scoreResult {} 0 "q" [] cxW2Res).finalScore ≤ 1 ∧
    (0 : ℚ) ≤ (scoreResult {} 0 "q" [] cxW2Res).finalScore := by
  have hmem : scoreResult {} 0 "q" [] cxW2Res ∈ rerankResults [cxW2Res] "q" {} 0 := by
    decide
  have h := c2_finalScore_bounds [cxW2Res] "q" {} 0 _ hmem
  exact ⟨h.1, h.2 (by decide)⟩

/-- C4 (amended): with the recency toggle off, `rerankResults` is
independent of the clock instant — any two invocations at different
moments agree; the recency factor is the only clock-reading one. -/
theorem c4_clock_free_when_no_recency (results : List SearchResult) (query : String)
    (options : RerankOptions) (now now' : ℚ) (h : options.boostRecent = false) :
    rerankResults results query options now = rerankResults results query options now' := by
  unfold rerankResults
  refine congrArg sortByScoreDesc ?_
  refine List.map_congr_left ?_
  intro s _
  simp [scoreResult, h]

/-- C4 witness: the clock-independence theorem at two concrete instants. -/
theorem c4_witness :
    rerankResults [cx4Res] "q" cxOptsNoRecent 0 =
      rerankResults [cx4Res] "q" cxOptsNoRecent 123 :=
  c4_clock_free_when_no_recency [cx4Res] "q" cxOptsNoRecent 0 123 rfl

/-- `qFloor` agrees with the order-theoretic floor. -/
theorem qFloor_eq (x : ℚ) : qFloor x = ⌊x⌋ :=
  Rat.floor_def.symm

/-- `qCeil` agrees with the order-theoretic ceiling. -/
theorem qCeil_eq (x : ℚ) : qCeil x = ⌈x⌉ := by
  unfold qCeil
  rw [qFloor_eq, Int.floor_neg, neg_neg]

/-- Closed form of the 1.3-per-word ceiling. -/
theorem qCeil_toNat_13_10 (w : ℕ) :
    (qCeil ((w : ℚ) * (13 / 10))).toNat = (13 * w + 9) / 10 := by
  have hx : ((w : ℚ) * (13 / 10)) = ((13 * w : ℤ) : ℚ) / ((10 : ℕ) : ℚ) := by
    push_cast
    ring
  rw [qCeil_eq, hx]
  have hc : ⌈((13 * w : ℤ) : ℚ) / ((10 : ℕ) : ℚ)⌉ =
      -⌊-(((13 * w : ℤ) : ℚ) / ((10 : ℕ) : ℚ))⌋ := by
    rw [Int.floor_neg, neg_neg]
  have h2 : -(((13 * w : ℤ) : ℚ) / ((10 : ℕ) : ℚ)) =
      ((-(13 * w) : ℤ) : ℚ) / ((10 : ℕ) : ℚ) := by
    push_cast
    ring
  rw [hc, h2, Rat.floor_intCast_div_natCast]
  omega

/-- C10: the token estimate is `ceil(1.3 * n)` where `n` is the number of
non-empty whitespace-separated words — in closed form `(13n + 9) / 10`,
zero for the empty string — so it depends on nothing but the word count:
texts with equal word counts get equal estimates. -/
theorem c10_token_estimate_word_count (s t : String) :
    estimateTokenCount s = (13 * wcount s + 9) / 10 ∧
    (wcount s = wcount t → estimateTokenCount s = estimateTokenCount t) := by
  have key : ∀ u : String, estimateTokenCount u = (13 * wcount u + 9) / 10 := by
    intro u
    unfold estimateTokenCount wcount
    by_cases hu : u = ""
    · subst hu
      decide
    · rw [if_neg hu]
      dsimp only
      generalize ((jsSplitWs u).filter (fun w => w.length > 0)).length = w
      exact qCeil_toNat_13_10 w
  exact ⟨key s, fun h => by rw [key s, key t, h]⟩

/-- C10 witness: two texts of two words each get the same estimate. -/
theorem c10_witness : estimateTokenCount "hello world" = estimateTokenCount "aa bb" :=
  (c10_token_estimate_word_count "hello world" "aa bb").2 (by decide)

/-- The per-family step of the code-presence fold adds exactly the capped
per-family term, the zero-match case contributing zero. -/
theorem codeBoost_foldl_eq_sum (text : String) :
    ∀ (L : List (List Char → Option (List Char))) (acc : ℚ),
      L.foldl (fun acc m =>
        let n := countMatches m text
        if 0 < n then acc + jsMin ((n : ℚ) * (1 / 100)) (2 / 100) else acc) acc =
      acc + (L.map (fun m => jsMin ((countMatches m text : ℚ) * (1 / 100)) (2 / 100))).sum := by
  intro L
  induction L with
  | nil => intro acc; simp
  | cons m ms ih =>
    intro acc
    simp only [List.foldl_cons, List.map_cons, List.sum_cons, ih]
    have hstep : (let n := countMatches m text
        if 0 < n then acc + jsMin ((n : ℚ) * (1 / 100)) (2 / 100) else acc) =
        acc + jsMin ((countMatches m text : ℚ) * (1 / 100)) (2 / 100) := by
      dsimp only
      split
      · rfl
      · rename_i hn
        have h0 : countMatches m text = 0 := by omega
        rw [h0]
        norm_num [jsMin]
    rw [hstep]
    ring

/-- C8 (amended): with no technical trigger in the query the boost is 0;
with one, each pattern family contributes `min (0.01 * matches) 0.02` —
0.01 per individual match capped at 0.02 per family, not a flat 0.01 per
family — and the total is capped at 0.08. -/
theorem c8_code_boost_per_family_cap (text queryLower : String) :
    calculateCodePresenceBoost text queryLower =
      if isTechnicalQuery queryLower then
        jsMin ((codeIndicators.map
          (fun m => jsMin ((countMatches m text : ℚ) * (1 / 100)) (2 / 100))).sum)
          (8 / 100)
      else 0 := by
  unfold calculateCodePresenceBoost
  by_cases h : isTechnicalQuery queryLower
  · simp only [h, Bool.not_true, Bool.false_eq_true, if_false, if_true]
    rw [codeBoost_foldl_eq_sum text codeIndicators 0]
    rw [zero_add]
  · simp only [h, Bool.not_false, if_true, Bool.false_eq_true, if_false]

/-- C8 witness: the per-family formula instantiated on the counterexample
text and a technical query. -/
theorem c8_witness :
    calculateCodePresenceBoost cx8Text "code" =
      if isTechnicalQuery "code" then
        jsMin ((codeIndicators.map
          (fun m => jsMin ((countMatches m cx8Text : ℚ) * (1 / 100)) (2 / 100))).sum)
          (8 / 100)
      else 0 :=
  c8_code_boost_per_family_cap cx8Text "code"

/-- The character split never returns an empty list of pieces. -/
theorem splitOnChar_ne_nil (sep : Char) (l : List Char) : splitOnChar sep l ≠ [] := by
  cases l with
  | nil => simp [splitOnChar]
  | cons c cs =>
    unfold splitOnChar
    by_cases h : c = sep
    · simp [h]
    · simp only [h, if_false]
      cases splitOnChar sep cs <;> simp

/-- The number of split pieces is one more than the separator count. -/
theorem length_splitOnChar (sep : Char) (l : List Char) :
    (splitOnChar sep l).length = l.count sep + 1 := by
  induction l with
  | nil => simp [splitOnChar]
  | cons c cs ih =>
    unfold splitOnChar
    by_cases h : c = sep
    · subst h
      simp [ih]
    · simp only [h, if_false]
      cases hsp : splitOnChar sep cs with
      | nil => exact absurd hsp (splitOnChar_ne_nil sep cs)
      | cons p ps =>
        rw [hsp] at ih
        simp only [List.length_cons] at ih ⊢
        rw [List.count_cons]
        simp [h]
        omega

/-- C6 (amended): `timestampToSeconds` fails with an error exactly when the
string does not contain exactly two colons; the numeric content of the
groups and the presence of a dot-delimited millisecond group are never
checked — non-numeric groups flow through `parseInt` as `NaN`. -/
theorem c6_error_iff_colon_count (s : String) :
    (∃ e, timestampToSeconds s = .error e) ↔ s.toList.count ':' ≠ 2 := by
  have hlen : (jsSplitOn ':' s).length = s.toList.count ':' + 1 := by
    unfold jsSplitOn
    rw [List.length_map, length_splitOnChar]
  have key : (∃ e, timestampToSeconds s = .error e) ↔ (jsSplitOn ':' s).length ≠ 3 := by
    unfold timestampToSeconds
    dsimp only
    by_cases h : (jsSplitOn ':' s).length ≠ 3
    · rw [if_pos h]
      simp [h]
    · rw [if_neg h]
      simp [h]
  rw [key, hlen]
  omega

/-- C6 witness: the error criterion instantiated on a one-colon string. -/
theorem c6_witness :
    (∃ e, timestampToSeconds "aa:bb" = .error e) ↔ "aa:bb".toList.count ':' ≠ 2 :=
  c6_error_iff_colon_count "aa:bb"

/-- Monadic bind on a successful `Except` value. -/
theorem exceptBind_ok {ε α β : Type} (x : α) (f : α → Except ε β) :
    (Except.ok x >>= f : Except ε β) = f x := rfl

/-- Monadic bind on a failed `Except` value. -/
theorem exceptBind_error {ε α β : Type} (e : ε) (f : α → Except ε β) :
    ((Except.error e : Except ε α) >>= f) = Except.error e := rfl

/-- C7 (amended): for every successful analysis, the reported index is the
`findLectureStart` result and the confidence is classified by the index
threshold, not by the producing tier: `high` exactly for a nonzero index
below 20 (whichever tier produced it), `medium` exactly for an index of at
least 20 with intro duration under 900 seconds, `low` otherwise. -/
theorem c7_confidence_classification (segs : List VTTSegment) (a : IntroAnalysis)
    (h : analyzeIntroContent segs = .ok a) :
    findLectureStart segs = .ok a.lectureStartIndex ∧
    (a.confidence = .high ↔ a.lectureStartIndex ≠ 0 ∧ a.lectureStartIndex < 20) ∧
    (a.confidence = .medium ↔ 20 ≤ a.lectureStartIndex ∧ jsLtQ a.introDuration 900 = true) ∧
    (a.confidence = .low ↔ a.lectureStartIndex = 0 ∨
      (20 ≤ a.lectureStartIndex ∧ jsLtQ a.introDuration 900 = false)) := by
  unfold analyzeIntroContent at h
  cases hf : findLectureStart segs with
  | error e =>
    rw [hf, exceptBind_error] at h
    exact absurd h (by simp)
  | ok idx =>
    rw [hf, exceptBind_ok] at h
    by_cases hidx : idx = 0
    · subst hidx
      rw [if_pos rfl] at h
      rw [Except.ok.injEq] at h
      subst h
      refine ⟨rfl, ?_, ?_, ?_⟩ <;> simp
    · rw [if_neg hidx] at h
      cases hg : segs.get? idx with
      | none =>
        rw [hg] at h
        exact absurd h (by simp)
      | some seg =>
        rw [hg] at h
        dsimp only at h
        cases ht : timestampToSeconds seg.startTime with
        | error e =>
          rw [ht, exceptBind_error] at h
          exact absurd h (by simp)
        | ok dur =>
          rw [ht, exceptBind_ok] at h
          rw [Except.ok.injEq] at h
          subst h
          refine ⟨rfl, ?_, ?_, ?_⟩
          · dsimp only
            by_cases h20 : idx < 20
            · simp [h20, hidx]
            · simp only [if_neg h20]
              constructor
              · intro hc
                split at hc <;> simp_all
              · intro h2
                omega
          · dsimp only
            by_cases h20 : idx < 20
            · simp only [if_pos h20]
              constructor
              · intro hc
                simp at hc
              · intro h2
                omega
            · simp only [if_neg h20]
              by_cases hlt : jsLtQ dur 900 = true
              · have h915 : jsLtQ dur (15 * 60) = jsLtQ dur 900 := by norm_num
                simp [h915, hlt] <;> omega
              · have h915 : jsLtQ dur (15 * 60) = jsLtQ dur 900 := by norm_num
                simp [h915, hlt] <;> omega
          · dsimp only
            by_cases h20 : idx < 20
            · simp [h20, hidx] <;> omega
            · simp only [if_neg h20]
              have h915 : jsLtQ dur (15 * 60) = jsLtQ dur 900 := by norm_num
              by_cases hlt : jsLtQ dur 900 = true
              · simp [h915, hlt] <;> omega
              · simp [h915, hlt] <;> omega

/-- C7 witness: the classification applied to the concrete fallback-tier
input. -/
theorem c7_witness : findLectureStart cx7Segs = .ok 1 := by
  have h := (c7_confidence_classification cx7Segs
    { hasIntro := true, introDuration := some 660, lectureStartIndex := 1,
      confidence := Confidence.high } (by decide)).1
  exact h
set_option maxRecDepth 100000 in
/-- C3: the codec round-trip is not exact in the arithmetic the source
actually performs.  For `(h, m, s, ms) = (0, 9, 0, 1)` the value
`x = 540.001` is stored as the binary64 neighbour less than `x` (within
a nanosecond of it), `Math.floor((x % 1) * 1000)` then lands on 0 rather
than 1, the formatter emits "00:09:00.000", and the parse side returns
540 — a full millisecond below `x`. -/
theorem c3_roundtrip_drops_millisecond :
    secondsToTimestamp (roundDouble (3600 * 0 + 60 * 9 + 0 + (1 : ℚ) / 1000)) =
      "00:09:00.000" ∧
    timestampToSeconds "00:09:00.000" = .ok (some (540 : ℚ)) ∧
    (3600 * 0 + 60 * 9 + 0 + (1 : ℚ) / 1000) - roundDouble (3600 * 0 + 60 * 9 + 0 +
      (1 : ℚ) / 1000) < 1 / 1000000000 ∧
    (540 : ℚ) ≠ 3600 * 0 + 60 * 9 + 0 + (1 : ℚ) / 1000 :=
  ⟨by decide, by decide, by decide, by decide⟩
